import Mathlib

/-!
# kine: etcd bridge over a key/value backend

A shallow embedding of `pkg/server/kv.go`, `pkg/server/limited.go` and
`pkg/drivers/dynamodb/backend.go`, followed by the properties settled on it.

Conventions of the embedding

* Go `string` and `[]byte` are both finite byte sequences; both are `String`
  here and the conversions `[]byte(s)` and `string(b)` are the identity.
* `int64` fields are `Int`, `uint64` fields are `Nat`; no arithmetic is done on
  them by the embedded code, so no wrap-around is involved.
* A pointer that may be nil is an `Option`; a slice is a `List`, the nil slice
  being `[]`.  Requests are decoded from the wire, so the request pointer
  itself and the entries of its repeated fields are not nil.
* A Go result pair `(resp, err)` is kept as a pair of options, since the code
  hands both components on unchanged in places.
* The storage state lives outside the server; every operation that can touch
  it takes the state and returns the new one, together with the list of
  downstream calls it made, in call order.
* `context.Context` arguments and `logrus` log lines carry no data of the
  properties below and are left out.
-/

set_option autoImplicit false

/-- Go byte slices and strings. -/
abbrev Bytes := String

/-! ## Wire types of `go.etcd.io/etcd/api/v3` -/

namespace mvccpb

/-- Wire record `mvccpb.KeyValue`. -/
structure KeyValue where
  Key : Bytes
  CreateRevision : Int
  ModRevision : Int
  Version : Int
  Value : Bytes
  Lease : Int
deriving DecidableEq, Repr

end mvccpb

namespace etcdserverpb

/-- Wire header `etcdserverpb.ResponseHeader`. -/
structure ResponseHeader where
  ClusterId : Nat
  MemberId : Nat
  Revision : Int
  RaftTerm : Nat
deriving DecidableEq, Repr

/-- Wire request `etcdserverpb.RangeRequest`; the two sort fields are open
protobuf enums, that is, 32-bit integers. -/
structure RangeRequest where
  Key : Bytes
  RangeEnd : Bytes
  Limit : Int
  Revision : Int
  SortOrder : Int
  SortTarget : Int
  Serializable : Bool
  KeysOnly : Bool
  CountOnly : Bool
  MinModRevision : Int
  MaxModRevision : Int
  MinCreateRevision : Int
  MaxCreateRevision : Int
deriving DecidableEq, Repr

/-- Wire response `etcdserverpb.RangeResponse`. -/
structure RangeResponse where
  Header : Option ResponseHeader
  Kvs : List (Option mvccpb.KeyValue)
  More : Bool
  Count : Int
deriving DecidableEq, Repr

/-- Wire request `etcdserverpb.PutRequest`. -/
structure PutRequest where
  Key : Bytes
  Value : Bytes
  Lease : Int
  PrevKv : Bool
  IgnoreValue : Bool
  IgnoreLease : Bool
deriving DecidableEq, Repr

/-- Wire response `etcdserverpb.PutResponse`. -/
structure PutResponse where
  Header : Option ResponseHeader
  PrevKv : Option mvccpb.KeyValue
deriving DecidableEq, Repr

/-- Wire request `etcdserverpb.DeleteRangeRequest`. -/
structure DeleteRangeRequest where
  Key : Bytes
  RangeEnd : Bytes
  PrevKv : Bool
deriving DecidableEq, Repr

/-- Wire response `etcdserverpb.DeleteRangeResponse`. -/
structure DeleteRangeResponse where
  Header : Option ResponseHeader
  Deleted : Int
  PrevKvs : List (Option mvccpb.KeyValue)
deriving DecidableEq, Repr

/-- The `Compare.CompareTarget` enum values. -/
def Compare_VERSION : Int := 0

/-- Target `CREATE`: the comparator looks at the create revision. -/
def Compare_CREATE : Int := 1

/-- Target `MOD`: the comparator looks at the mod revision. -/
def Compare_MOD : Int := 2

/-- Target `VALUE`: the comparator looks at the value. -/
def Compare_VALUE : Int := 3

/-- Target `LEASE`: the comparator looks at the lease. -/
def Compare_LEASE : Int := 4

/-- The `Compare.CompareResult` enum value `EQUAL`. -/
def Compare_EQUAL : Int := 0

/-- The oneof `Compare.target_union`. -/
inductive TargetUnion where
  | Version (v : Int)
  | CreateRevision (v : Int)
  | ModRevision (v : Int)
  | Value (v : Bytes)
  | Lease (v : Int)
deriving DecidableEq, Repr

/-- Wire message `etcdserverpb.Compare`. -/
structure Compare where
  Result : Int
  Target : Int
  Key : Bytes
  TargetUnion : Option TargetUnion
  RangeEnd : Bytes
deriving DecidableEq, Repr

mutual

/-- Wire message `etcdserverpb.RequestOp`: the oneof `request`, each wrapper
holding a pointer to its message. -/
inductive RequestOp where
  | unset
  | RequestRange (r : Option RangeRequest)
  | RequestPut (r : Option PutRequest)
  | RequestDeleteRange (r : Option DeleteRangeRequest)
  | RequestTxn (r : Option TxnRequest)

/-- Wire request `etcdserverpb.TxnRequest`. -/
inductive TxnRequest where
  | mk (Compare : List Compare) (Success : List RequestOp) (Failure : List RequestOp)

end

/-- Field `Compare` of a transaction request. -/
def TxnRequest.Compare : TxnRequest → List Compare
  | .mk c _ _ => c

/-- Field `Success` of a transaction request. -/
def TxnRequest.Success : TxnRequest → List RequestOp
  | .mk _ s _ => s

/-- Field `Failure` of a transaction request. -/
def TxnRequest.Failure : TxnRequest → List RequestOp
  | .mk _ _ f => f

/-- Generated getter `RequestOp.GetRequestPut`: the put message when the oneof
holds the put wrapper, nil otherwise. -/
def RequestOp.GetRequestPut : RequestOp → Option PutRequest
  | .RequestPut r => r
  | _ => none

/-- Generated getter `RequestOp.GetRequestDeleteRange`. -/
def RequestOp.GetRequestDeleteRange : RequestOp → Option DeleteRangeRequest
  | .RequestDeleteRange r => r
  | _ => none

mutual

/-- Wire message `etcdserverpb.ResponseOp`. -/
inductive ResponseOp where
  | unset
  | ResponseRange (r : Option RangeResponse)
  | ResponsePut (r : Option PutResponse)
  | ResponseDeleteRange (r : Option DeleteRangeResponse)
  | ResponseTxn (r : Option TxnResponse)

/-- Wire response `etcdserverpb.TxnResponse`. -/
inductive TxnResponse where
  | mk (Header : Option ResponseHeader) (Succeeded : Bool) (Responses : List ResponseOp)

end

end etcdserverpb

/-! ## Package `server` -/

namespace server

open etcdserverpb

/-- Modelled from the spec: the error values of package `server`, whose
declarations are outside the listed sources.  `unsupported field` is the
"unsupported" rejection the bridge returns for a request option it cannot
honour, `ErrNotSupported` the rejection of an unrecognised transaction shape,
`other` any failure reported by a storage adapter. -/
inductive GoError where
  | unsupported (field : String)
  | ErrNotSupported
  | other (msg : String)
deriving DecidableEq, Repr

/-- Constructor function `unsupported(field)` of package `server`. -/
def unsupported (field : String) : GoError := GoError.unsupported field

/-- Modelled from the spec: the internal record `server.KeyValue` (section 3,
KeyValue), declared outside the listed sources; the five fields are those
`toKV` reads. -/
structure KeyValue where
  Key : String
  CreateRevision : Int
  ModRevision : Int
  Value : Bytes
  Lease : Int
deriving DecidableEq, Repr

/-- Internal response `server.RangeResponse` of `limited.go`. -/
structure RangeResponse where
  Header : Option ResponseHeader
  Kvs : List (Option KeyValue)
  More : Bool
  Count : Int
deriving DecidableEq, Repr

/-- What a call yields: the Go result pair, or a run-time panic (a nil
dereference). -/
inductive Result (α : Type) where
  | ret (resp : Option α) (err : Option GoError)
  | panicked
deriving DecidableEq

/-- A downstream call, as recorded in call order. -/
inductive Event where
  | limitedRange (r : RangeRequest)
  | limitedTxn (txn : TxnRequest)
  | get (r : RangeRequest)
  | list (r : RangeRequest)
  | create (put : PutRequest)
  | delete (key : String) (rev : Int)
  | update (rev : Int) (key : String) (value : Bytes) (lease : Int)
  | compact
  | backendPut (key : Bytes) (value : Bytes)
  | backendDeleteRange (startKey : Bytes) (endKey : Bytes)

/-- Is the event a call of `LimitedServer.Txn`. -/
def Event.isLimitedTxn : Event → Bool
  | .limitedTxn _ => true
  | _ => false

/-- Is the event a call of one of the four transaction handlers. -/
def Event.isHandler : Event → Bool
  | .create _ => true
  | .delete _ _ => true
  | .update _ _ _ _ => true
  | .compact => true
  | _ => false

/-- The run of an operation from a storage state: its result, the storage
state it leaves and the downstream calls it made. -/
structure Run (σ α : Type) where
  result : Result α
  state : σ
  trace : List Event

/-- The part of the interface `server.Backend` that `limited.go` calls, over a
storage state `σ`. -/
structure Backend (σ : Type) where
  Put : Bytes → Bytes → σ → Option GoError × σ
  DeleteRange : Bytes → Bytes → σ → Option GoError × σ

/-- Struct `LimitedServer` of `limited.go`. -/
structure LimitedServer (σ : Type) where
  notifyInterval : Int
  backend : Backend σ
  scheme : String

/-- The methods of `LimitedServer` and the transaction classifiers that
`limited.go` calls but that are declared outside the listed sources, taken as
parameters with the signatures of their call sites.  A method receives the
server and the storage state; a classifier sees the request only. -/
structure Unlisted (σ : Type) where
  get : LimitedServer σ → RangeRequest → σ → Result RangeResponse × σ
  list : LimitedServer σ → RangeRequest → σ → Result RangeResponse × σ
  isCreate : TxnRequest → Option PutRequest
  isDelete : TxnRequest → Int × String × Bool
  isUpdate : TxnRequest → Int × String × Bytes × Int × Bool
  isCompact : TxnRequest → Bool
  create : LimitedServer σ → PutRequest → σ → Result TxnResponse × σ
  delete : LimitedServer σ → String → Int → σ → Result TxnResponse × σ
  update : LimitedServer σ → Int → String → Bytes → Int → σ → Result TxnResponse × σ
  compact : LimitedServer σ → σ → Result TxnResponse × σ

/-- Struct `KVServerBridge`: it holds the limited server it delegates to. -/
structure KVServerBridge (σ : Type) where
  limited : LimitedServer σ

/-! ### `limited.go` -/

/-- `LimitedServer.Range`: a single-key get when the range end is empty, a
list otherwise. -/
def LimitedServer.Range {σ : Type} (u : Unlisted σ) (l : LimitedServer σ)
    (r : RangeRequest) (s : σ) : Run σ RangeResponse :=
  if r.RangeEnd.length = 0 then
    let out := u.get l r s
    { result := out.1, state := out.2, trace := [Event.get r] }
  else
    let out := u.list l r s
    { result := out.1, state := out.2, trace := [Event.list r] }

/-- `txnHeader`: a header carrying the revision. -/
def txnHeader (rev : Int) : ResponseHeader :=
  { ClusterId := 0, MemberId := 0, Revision := rev, RaftTerm := 0 }

/-- `LimitedServer.Put`: an unconditional write through `backend.Put`; the
header of the response is `txnHeader(0)`. -/
def LimitedServer.Put {σ : Type} (l : LimitedServer σ) (r : PutRequest) (s : σ) :
    Run σ PutResponse :=
  match l.backend.Put r.Key r.Value s with
  | (some err, s1) =>
    { result := Result.ret none (some err), state := s1,
      trace := [Event.backendPut r.Key r.Value] }
  | (none, s1) =>
    { result := Result.ret (some { Header := some (txnHeader 0), PrevKv := none }) none,
      state := s1, trace := [Event.backendPut r.Key r.Value] }

/-- `LimitedServer.DeleteRange`: an unconditional bulk delete through
`backend.DeleteRange`; the header of the response is `txnHeader(0)`. -/
def LimitedServer.DeleteRange {σ : Type} (l : LimitedServer σ) (r : DeleteRangeRequest)
    (s : σ) : Run σ DeleteRangeResponse :=
  match l.backend.DeleteRange r.Key r.RangeEnd s with
  | (some err, s1) =>
    { result := Result.ret none (some err), state := s1,
      trace := [Event.backendDeleteRange r.Key r.RangeEnd] }
  | (none, s1) =>
    { result := Result.ret
        (some { Header := some (txnHeader 0), Deleted := 0, PrevKvs := [] }) none,
      state := s1, trace := [Event.backendDeleteRange r.Key r.RangeEnd] }

/-- `LimitedServer.Txn`: the classifiers are tried in the order create, delete,
update, compact and the handler of the first that recognises the request is
called; a request none recognises is answered `ErrNotSupported`. -/
def LimitedServer.Txn {σ : Type} (u : Unlisted σ) (l : LimitedServer σ)
    (txn : TxnRequest) (s : σ) : Run σ TxnResponse :=
  match u.isCreate txn with
  | some put =>
    let out := u.create l put s
    { result := out.1, state := out.2, trace := [Event.create put] }
  | none =>
    match u.isDelete txn with
    | (rev, key, true) =>
      let out := u.delete l key rev s
      { result := out.1, state := out.2, trace := [Event.delete key rev] }
    | (_, _, false) =>
      match u.isUpdate txn with
      | (rev, key, value, lease, true) =>
        let out := u.update l rev key value lease s
        { result := out.1, state := out.2, trace := [Event.update rev key value lease] }
      | (_, _, _, _, false) =>
        if u.isCompact txn then
          let out := u.compact l s
          { result := out.1, state := out.2, trace := [Event.compact] }
        else
          { result := Result.ret none (some GoError.ErrNotSupported), state := s, trace := [] }

/-! ### `kv.go` -/

/-- `toKV`: nil for nil, otherwise the wire record with the key, value, lease,
create revision and mod revision of the internal record. -/
def toKV (kv : Option KeyValue) : Option mvccpb.KeyValue :=
  match kv with
  | none => none
  | some kv =>
    some { Key := kv.Key, Value := kv.Value, Lease := kv.Lease,
           CreateRevision := kv.CreateRevision, ModRevision := kv.ModRevision,
           Version := 0 }

/-- `toKVs`: nil when there is no record or the first one is nil; otherwise the
loop appends the conversion of every record whose conversion is not nil. -/
def toKVs (kvs : List (Option KeyValue)) : List (Option mvccpb.KeyValue) :=
  match kvs with
  | [] => []
  | none :: _ => []
  | some _ :: _ =>
    kvs.foldl
      (fun ret kv =>
        match toKV kv with
        | some newKV => ret ++ [some newKV]
        | none => ret)
      []

/-- The option checks of `KVServerBridge.Range`, in source order: the field
named in the rejection, or nil when the request passes. -/
def rangeUnsupported (r : RangeRequest) : Option GoError :=
  if r.KeysOnly then some (unsupported "keysOnly")
  else if r.MaxCreateRevision ≠ 0 then some (unsupported "maxCreateRevision")
  else if r.SortOrder ≠ 0 then some (unsupported "sortOrder")
  else if r.SortTarget ≠ 0 then some (unsupported "sortTarget")
  else if r.Serializable then some (unsupported "serializable")
  else if r.MinModRevision ≠ 0 then some (unsupported "minModRevision")
  else if r.MinCreateRevision ≠ 0 then some (unsupported "minCreateRevision")
  else if r.MaxCreateRevision ≠ 0 then some (unsupported "maxCreateRevision")
  else if r.MaxModRevision ≠ 0 then some (unsupported "maxModRevision")
  else none

/-- `KVServerBridge.Range`: reject a request that uses an unsupported option,
otherwise delegate to `LimitedServer.Range` and re-wrap its response. -/
def KVServerBridge.Range {σ : Type} (u : Unlisted σ) (k : KVServerBridge σ)
    (r : RangeRequest) (s : σ) : Run σ etcdserverpb.RangeResponse :=
  match rangeUnsupported r with
  | some err => { result := Result.ret none (some err), state := s, trace := [] }
  | none =>
    let run := LimitedServer.Range u k.limited r s
    let trace := Event.limitedRange r :: run.trace
    match run.result with
    | Result.panicked => { result := Result.panicked, state := run.state, trace := trace }
    | Result.ret _ (some err) =>
      { result := Result.ret none (some err), state := run.state, trace := trace }
    | Result.ret none none => { result := Result.panicked, state := run.state, trace := trace }
    | Result.ret (some resp) none =>
      { result := Result.ret
          (some { More := resp.More, Count := resp.Count, Header := resp.Header,
                  Kvs := toKVs resp.Kvs }) none,
        state := run.state, trace := trace }

/-- The comparator loop of `KVServerBridge.Txn`: the rejection of the first
comparator whose target is `VALUE`, `CREATE` or `MOD`. -/
def txnCompareUnsupported : List Compare → Option GoError
  | [] => none
  | c :: cs =>
    if c.Target = Compare_VALUE then some (unsupported "compare.Value")
    else if c.Target = Compare_CREATE then some (unsupported "compare.Create")
    else if c.Target = Compare_MOD then some (unsupported "compare.Mod")
    else txnCompareUnsupported cs

/-- The operation loops of `KVServerBridge.Txn` over the branch named `branch`:
the rejection of the first operation that is a put or a delete-range. -/
def txnOpsUnsupported (branch : String) : List RequestOp → Option GoError
  | [] => none
  | op :: ops =>
    if op.GetRequestPut ≠ none then some (unsupported ("txn." ++ branch ++ ".Put"))
    else if op.GetRequestDeleteRange ≠ none then
      some (unsupported ("txn." ++ branch ++ ".DeleteRange"))
    else txnOpsUnsupported branch ops

/-- The three loops of `KVServerBridge.Txn` in source order: comparators, then
the success branch, then the failure branch. -/
def txnUnsupported (r : TxnRequest) : Option GoError :=
  match txnCompareUnsupported r.Compare with
  | some err => some err
  | none =>
    match txnOpsUnsupported "Success" r.Success with
    | some err => some err
    | none => txnOpsUnsupported "Failure" r.Failure

/-- `KVServerBridge.Txn`: reject on the first offending comparator or
operation, otherwise call `LimitedServer.Txn` and return its response and
error as they are. -/
def KVServerBridge.Txn {σ : Type} (u : Unlisted σ) (k : KVServerBridge σ)
    (r : TxnRequest) (s : σ) : Run σ TxnResponse :=
  match txnUnsupported r with
  | some err => { result := Result.ret none (some err), state := s, trace := [] }
  | none =>
    let run := LimitedServer.Txn u k.limited r s
    { result := run.result, state := run.state, trace := Event.limitedTxn r :: run.trace }

end server

/-! ## Package `dynamodb` (the DynamoDB storage adapter) -/

namespace dynamodb

open server

/-- Verb `%d` of `fmt.Sprintf` on an `int64`: the decimal digits, after a
minus sign for a negative number. -/
def fmtD (i : Int) : String :=
  match i with
  | Int.ofNat n => String.mk (Nat.toDigits 10 n)
  | Int.negSucc n => "-" ++ String.mk (Nat.toDigits 10 (n + 1))

/-- The value of the attribute `PK` of the item of a key: `key#%s`. -/
def pkOf (key : String) : String := "key#" ++ key

/-- The value of the attribute `SK` of the item of a revision: `meta#%d`. -/
def skOf (revision : Int) : String := "meta#" ++ fmtD revision

/-- An attribute value of the SDK, by its type tag. -/
inductive AttributeValue where
  | S (s : String)
  | N (n : String)
  | B (b : Bytes)
  | BOOL (b : Bool)
  | NULL
deriving DecidableEq, Repr

/-- An item: the Go map from attribute name to attribute value. -/
abbrev Item := String → Option AttributeValue

/-- One stored item, filed under its primary key: the partition key `PK` and
the sort key `SK` of the schema that `createTableIfNotExist` declares. -/
structure Entry where
  PK : String
  SK : String
  item : Item

/-- The table: a finite map from `(PK, SK)` to the item, kept as a list with
at most one entry a key. -/
abbrev Table := List Entry

/-- Does the entry sit at the primary key `(pk, sk)`. -/
def Entry.isAt (pk sk : String) (e : Entry) : Bool :=
  decide (e.PK = pk) && decide (e.SK = sk)

/-- The item stored at a primary key, if any. -/
def Table.lookup (t : Table) (pk sk : String) : Option Item :=
  (t.find? (Entry.isAt pk sk)).map Entry.item

/-- The table without the item at a primary key. -/
def Table.remove (t : Table) (pk sk : String) : Table :=
  t.filter (fun e => !Entry.isAt pk sk e)

/-- The table with the item at a primary key written or replaced. -/
def Table.store (t : Table) (pk sk : String) (item : Item) : Table :=
  { PK := pk, SK := sk, item := item } :: t.remove pk sk

/-- The string values of the two key attributes of an attribute map; a
service call whose key attributes are missing or not strings is refused. -/
def primaryKey (m : Item) : Option (String × String) :=
  match m "PK", m "SK" with
  | some (AttributeValue.S pk), some (AttributeValue.S sk) => some (pk, sk)
  | _, _ => none

/-- Service call `PutItem`: write the item under its primary key, replacing
the item stored there. -/
def PutItemWithContext (t : Table) (item : Item) : Option GoError × Table :=
  match primaryKey item with
  | some (pk, sk) => (none, t.store pk sk item)
  | none => (some (GoError.other "ValidationException"), t)

/-- Service call `GetItem`: the item at the primary key, nil when there is
none. -/
def GetItemWithContext (t : Table) (key : Item) : Option Item × Option GoError :=
  match primaryKey key with
  | some (pk, sk) => (t.lookup pk sk, none)
  | none => (none, some (GoError.other "ValidationException"))

/-- Service call `DeleteItem`: remove the item at the primary key; with
`ReturnValues = ALL_OLD` the attributes of the removed item are returned, nil
when nothing was stored there. -/
def DeleteItemWithContext (t : Table) (key : Item) (allOld : Bool) :
    (Option Item × Option GoError) × Table :=
  match primaryKey key with
  | some (pk, sk) => ((if allOld then t.lookup pk sk else none, none), t.remove pk sk)
  | none => ((none, some (GoError.other "ValidationException")), t)

/-- Service call `Query` with the key condition `PK BETWEEN :start AND :end`,
read on the map: the stored items whose partition key lies in the closed
interval. -/
def QueryBetween (t : Table) (start stop : String) : List Item × Option GoError :=
  ((t.filter (fun e => decide (start ≤ e.PK) && decide (e.PK ≤ stop))).map Entry.item, none)

/-- The state the adapter runs against: the table, and the reading that
`time.Now().UnixNano()` gives, an input the adapter only reads. -/
structure World where
  table : Table
  now : Int

/-- Library function `dynamodbattribute.UnmarshalMap` into a `server.KeyValue`,
taken as a parameter: the decoded record, or the decoding error. -/
abbrev Unmarshal := Item → Except GoError KeyValue

/-- The attribute map with the two key attributes only. -/
def keyItem (pk sk : String) : Item :=
  fun a =>
    if a = "PK" then some (AttributeValue.S pk)
    else if a = "SK" then some (AttributeValue.S sk)
    else none

/-- The item `Backend.Put` builds: the key as `PK`, the clock reading as `SK`,
the value as the binary attribute `Value`. -/
def putItem (key : Bytes) (now : Int) (value : Bytes) : Item :=
  fun a =>
    if a = "PK" then some (AttributeValue.S (pkOf key))
    else if a = "SK" then some (AttributeValue.S (skOf now))
    else if a = "Value" then some (AttributeValue.B value)
    else none

/-- Result triple of `Backend.Get`. -/
structure GetResult where
  rev : Int
  kv : Option KeyValue
  err : Option GoError
deriving DecidableEq, Repr

/-- Result quadruple of `Backend.Delete` and `Backend.Update`; `ok` is the
flag `deleted`, respectively `updated`. -/
structure CondResult where
  rev : Int
  kv : Option KeyValue
  ok : Bool
  err : Option GoError
deriving DecidableEq, Repr

/-- `Backend.Put`: one `PutItem` of the item built from the key, the clock
reading and the value. -/
def Backend.Put (key value : Bytes) (w : World) : Option GoError × World :=
  let item := putItem key w.now value
  let out := PutItemWithContext w.table item
  (out.1, { w with table := out.2 })

/-- The loop of `Backend.DeleteRange`: one `DeleteItem` for each item found,
by the `PK` and `SK` it carries, stopping at the first error. -/
def deleteItems : List Item → Table → Option GoError × Table
  | [], t => (none, t)
  | item :: items, t =>
    match DeleteItemWithContext t (keyItem
        (match item "PK" with | some (AttributeValue.S pk) => pk | _ => "")
        (match item "SK" with | some (AttributeValue.S sk) => sk | _ => "")) false with
    | ((_, some err), t1) => (some err, t1)
    | ((_, none), t1) => deleteItems items t1

/-- `Backend.DeleteRange`: query the items between the two keys and delete
them one by one. -/
def Backend.DeleteRange (startKey endKey : Bytes) (w : World) : Option GoError × World :=
  match QueryBetween w.table (pkOf startKey) (pkOf endKey) with
  | (_, some err) => (some err, w)
  | (items, none) =>
    let out := deleteItems items w.table
    (out.1, { w with table := out.2 })

/-- `Backend.Get`: one `GetItem` at `(key#<key>, meta#<revision>)`; absent
gives `(0, nil, nil)`, a decoding error `(0, nil, err)`, otherwise the decoded
record under the revision asked for.  `rangeEnd` and `limit` are not read. -/
def Backend.Get (unmarshal : Unmarshal) (key _rangeEnd : String) (_limit revision : Int)
    (w : World) : GetResult :=
  match GetItemWithContext w.table (keyItem (pkOf key) (skOf revision)) with
  | (_, some err) => { rev := 0, kv := none, err := some err }
  | (none, none) => { rev := 0, kv := none, err := none }
  | (some item, none) =>
    match unmarshal item with
    | Except.error err => { rev := 0, kv := none, err := some err }
    | Except.ok kv => { rev := revision, kv := some kv, err := none }

/-- `Backend.Delete`: one `DeleteItem` at `(key#<key>, meta#<revision>)` with
the old attributes returned; when none come back the answer is
`(0, nil, true, nil)`, otherwise the decoded old record with `deleted = true`. -/
def Backend.Delete (unmarshal : Unmarshal) (key : String) (revision : Int) (w : World) :
    CondResult × World :=
  match DeleteItemWithContext w.table (keyItem (pkOf key) (skOf revision)) true with
  | ((_, some err), t1) =>
    ({ rev := 0, kv := none, ok := false, err := some err }, { w with table := t1 })
  | ((none, none), t1) =>
    ({ rev := 0, kv := none, ok := true, err := none }, { w with table := t1 })
  | ((some attrs, none), t1) =>
    match unmarshal attrs with
    | Except.error err =>
      ({ rev := 0, kv := none, ok := false, err := some err }, { w with table := t1 })
    | Except.ok kv =>
      ({ rev := revision, kv := some kv, ok := true, err := none }, { w with table := t1 })

/-- The call `b.Put(ctx, []byte(key), value)` as `Backend.Update` binds it. The
source binds two results of it, `_` and `err`, while `Backend.Put` is declared
with the single result `error`: the statement is ill-typed and the source
fixes no callee for it. The call is therefore taken as a parameter, any
operation on the key and the value that yields the bound `err` and the storage
state it leaves. -/
abbrev PutCall := Bytes → Bytes → World → Option GoError × World

/-- `Backend.Update`, over the call it binds: on an error the answer is
`(0, nil, false, err)`, otherwise `(revision, record, true, nil)` with the
record built from the key, the value and the lease. The revision is handed
back and is compared with nothing. -/
def Backend.Update (put : PutCall) (key : String) (value : Bytes) (revision lease : Int)
    (w : World) : CondResult × World :=
  match put key value w with
  | (some err, w1) => ({ rev := 0, kv := none, ok := false, err := some err }, w1)
  | (none, w1) =>
    ({ rev := revision,
       kv := some { Key := key, Value := value, Lease := lease,
                    CreateRevision := 0, ModRevision := 0 },
       ok := true, err := none }, w1)

/-- `Backend.CurrentRevision`: always `(0, nil)`. -/
def Backend.CurrentRevision (_w : World) : Int × Option GoError := (0, none)

/-- `Backend.Compact`: the revision handed back, no error. -/
def Backend.Compact (revision : Int) (_w : World) : Int × Option GoError := (revision, none)

/-- The adapter as the `server.Backend` that `limited.go` calls. -/
def backend : server.Backend World :=
  { Put := Backend.Put, DeleteRange := Backend.DeleteRange }

/-- A limited server running on the adapter. -/
def limited : LimitedServer World :=
  { notifyInterval := 0, backend := backend, scheme := "" }

/-- Is key `key` stored at revision `revision`: an item sits at
`(key#<key>, meta#<revision>)`. -/
def storedAt (t : Table) (key : String) (revision : Int) : Prop :=
  (t.lookup (pkOf key) (skOf revision)).isSome = true

instance (t : Table) (key : String) (revision : Int) : Decidable (storedAt t key revision) := by
  unfold storedAt; infer_instance

end dynamodb

/-! ## Shapes of the specification and sample data -/

namespace server

open etcdserverpb

/-- Modelled from the spec: a comparator "asserting the key currently has
create-revision 0", the guard of the create-if-absent shape (section 4.2). -/
def assertsAbsent (c : Compare) : Prop :=
  c.Target = Compare_CREATE ∧ c.Result = Compare_EQUAL ∧
    c.TargetUnion = some (TargetUnion.CreateRevision 0)

/-- Modelled from the spec: a comparator "asserting the key's current revision
equals a caller-supplied value", the guard of the update and delete shapes
(section 4.2). -/
def assertsRevision (c : Compare) (rev : Int) : Prop :=
  c.Target = Compare_MOD ∧ c.Result = Compare_EQUAL ∧
    c.TargetUnion = some (TargetUnion.ModRevision rev)

/-- A branch without put or delete-range actions. -/
def noMutation (ops : List RequestOp) : Prop :=
  ∀ op ∈ ops, op.GetRequestPut = none ∧ op.GetRequestDeleteRange = none

/-- Modelled from the spec: the create-if-absent shape, exactly one comparator
asserting absence and exactly one put on success. -/
def createShape (r : TxnRequest) : Prop :=
  ∃ c put, r.Compare = [c] ∧ assertsAbsent c ∧
    r.Success = [RequestOp.RequestPut (some put)] ∧ noMutation r.Failure

/-- Modelled from the spec: the compare-and-swap update shape, exactly one
comparator on the revision and exactly one put on success. -/
def updateShape (r : TxnRequest) : Prop :=
  ∃ c rev put, r.Compare = [c] ∧ assertsRevision c rev ∧
    r.Success = [RequestOp.RequestPut (some put)] ∧ noMutation r.Failure

/-- Modelled from the spec: the compare-and-delete shape, the same comparator
with exactly one delete-range on success. -/
def deleteShape (r : TxnRequest) : Prop :=
  ∃ c rev del, r.Compare = [c] ∧ assertsRevision c rev ∧
    r.Success = [RequestOp.RequestDeleteRange (some del)] ∧ noMutation r.Failure

/-- The condition under which `KVServerBridge.Txn` refuses a request: a
comparator with target `VALUE`, `CREATE` or `MOD`, or a put or delete-range
among the operations of the success or of the failure branch.  An operation is
a put, respectively a delete-range, when its getter `GetRequestPut`,
respectively `GetRequestDeleteRange`, is not nil, which is the test of the
source. -/
def txnOffending (r : TxnRequest) : Prop :=
  (∃ c ∈ r.Compare,
      c.Target = Compare_VALUE ∨ c.Target = Compare_CREATE ∨ c.Target = Compare_MOD) ∨
    (∃ op ∈ r.Success, op.GetRequestPut ≠ none ∨ op.GetRequestDeleteRange ≠ none) ∨
    (∃ op ∈ r.Failure, op.GetRequestPut ≠ none ∨ op.GetRequestDeleteRange ≠ none)

/-- The Range options the bridge does not support, each unset. -/
def plainRange (r : RangeRequest) : Prop :=
  r.KeysOnly = false ∧ r.Serializable = false ∧ r.SortOrder = 0 ∧ r.SortTarget = 0 ∧
    r.MinModRevision = 0 ∧ r.MaxModRevision = 0 ∧
    r.MinCreateRevision = 0 ∧ r.MaxCreateRevision = 0

/-- At least one of the Range options the bridge does not support is set. -/
def usesUnsupportedOption (r : RangeRequest) : Prop :=
  r.KeysOnly = true ∨ r.Serializable = true ∨ r.SortOrder ≠ 0 ∨ r.SortTarget ≠ 0 ∨
    r.MinModRevision ≠ 0 ∨ r.MaxModRevision ≠ 0 ∨
    r.MinCreateRevision ≠ 0 ∨ r.MaxCreateRevision ≠ 0

instance (r : RangeRequest) : Decidable (plainRange r) := by
  unfold plainRange; infer_instance

instance (r : RangeRequest) : Decidable (usesUnsupportedOption r) := by
  unfold usesUnsupportedOption; infer_instance

/-- No classifier recognises the request. -/
def unrecognised {σ : Type} (u : Unlisted σ) (txn : TxnRequest) : Prop :=
  u.isCreate txn = none ∧ (u.isDelete txn).2.2 = false ∧
    (u.isUpdate txn).2.2.2.2 = false ∧ u.isCompact txn = false

/-- Revision carried by the header of a result, when it has a response with a
header. -/
def reportedRevision {α : Type} (header : α → Option ResponseHeader) :
    Result α → Option Int
  | Result.ret (some resp) _ => (header resp).map ResponseHeader.Revision
  | _ => none

namespace sample

/-- A plain single-key Range request. -/
def rangeReq : RangeRequest :=
  { Key := "a", RangeEnd := "", Limit := 0, Revision := 0, SortOrder := 0, SortTarget := 0,
    Serializable := false, KeysOnly := false, CountOnly := false, MinModRevision := 0,
    MaxModRevision := 0, MinCreateRevision := 0, MaxCreateRevision := 0 }

/-- The same request with `keys_only` set. -/
def keysOnlyReq : RangeRequest := { rangeReq with KeysOnly := true }

/-- Two internal records. -/
def records : List (Option KeyValue) :=
  [some { Key := "a", CreateRevision := 3, ModRevision := 5, Value := "x", Lease := 7 },
   some { Key := "b", CreateRevision := 4, ModRevision := 4, Value := "y", Lease := 0 }]

/-- The answer of the sample range handlers. -/
def rangeResp : RangeResponse :=
  { Header := some (txnHeader 5), Kvs := records, More := false, Count := 2 }

/-- The answer of the sample transaction handlers, by handler. -/
def txnResp (rev : Int) : TxnResponse :=
  TxnResponse.mk (some (txnHeader rev)) true []

/-- A put of value `v1` under key `a`. -/
def putReq : PutRequest :=
  { Key := "a", Value := "v1", Lease := 0, PrevKv := false, IgnoreValue := false,
    IgnoreLease := false }

/-- A put of value `v2` under key `b`. -/
def putReqB : PutRequest := { putReq with Key := "b", Value := "v2" }

/-- A comparator asserting that key `a` has create revision 0. -/
def absentCmp : Compare :=
  { Result := Compare_EQUAL, Target := Compare_CREATE, Key := "a",
    TargetUnion := some (TargetUnion.CreateRevision 0), RangeEnd := "" }

/-- A comparator asserting that key `a` has mod revision 5. -/
def revisionCmp : Compare :=
  { Result := Compare_EQUAL, Target := Compare_MOD, Key := "a",
    TargetUnion := some (TargetUnion.ModRevision 5), RangeEnd := "" }

/-- A create-if-absent transaction. -/
def createTxn : TxnRequest :=
  TxnRequest.mk [absentCmp] [RequestOp.RequestPut (some putReq)] []

/-- A compare-and-swap update transaction. -/
def updateTxn : TxnRequest :=
  TxnRequest.mk [revisionCmp] [RequestOp.RequestPut (some putReq)]
    [RequestOp.RequestRange (some rangeReq)]

/-- A compare-and-delete transaction. -/
def deleteTxn : TxnRequest :=
  TxnRequest.mk [revisionCmp]
    [RequestOp.RequestDeleteRange (some { Key := "a", RangeEnd := "", PrevKv := false })]
    [RequestOp.RequestRange (some rangeReq)]

/-- A transaction with a version comparator and a range read on success. -/
def readTxn : TxnRequest :=
  TxnRequest.mk
    [{ Result := Compare_EQUAL, Target := Compare_VERSION, Key := "a",
       TargetUnion := some (TargetUnion.Version 1), RangeEnd := "" }]
    [RequestOp.RequestRange (some rangeReq)] []

/-- Sample classifier for the create-if-absent shape of section 4.2. -/
def isCreate (txn : TxnRequest) : Option PutRequest :=
  match txn with
  | TxnRequest.mk [c] [op] [] =>
    if c.Target = Compare_CREATE ∧ c.Result = Compare_EQUAL ∧
        c.TargetUnion = some (TargetUnion.CreateRevision 0) then op.GetRequestPut
    else none
  | _ => none

/-- Sample classifier for the compare-and-delete shape of section 4.2. -/
def isDelete (txn : TxnRequest) : Int × String × Bool :=
  match txn with
  | TxnRequest.mk [c] [op] _ =>
    match c.TargetUnion, op.GetRequestDeleteRange with
    | some (TargetUnion.ModRevision rev), some del =>
      if c.Target = Compare_MOD ∧ c.Result = Compare_EQUAL then (rev, del.Key, true)
      else (0, "", false)
    | _, _ => (0, "", false)
  | _ => (0, "", false)

/-- Sample classifier for the compare-and-swap update shape of section 4.2. -/
def isUpdate (txn : TxnRequest) : Int × String × Bytes × Int × Bool :=
  match txn with
  | TxnRequest.mk [c] [op] _ =>
    match c.TargetUnion, op.GetRequestPut with
    | some (TargetUnion.ModRevision rev), some put =>
      if c.Target = Compare_MOD ∧ c.Result = Compare_EQUAL then
        (rev, put.Key, put.Value, put.Lease, true)
      else (0, "", "", 0, false)
    | _, _ => (0, "", "", 0, false)
  | _ => (0, "", "", 0, false)

/-- Sample classifier for a compaction: no comparator and no action. -/
def isCompact (txn : TxnRequest) : Bool :=
  match txn with
  | TxnRequest.mk [] [] [] => true
  | _ => false

/-- Sample unlisted part over a storage state that counts the handler calls:
the range handlers answer `rangeResp`, the transaction handlers answer
`txnResp` with a number of their own. -/
def unlisted : Unlisted Nat :=
  { get := fun _ _ n => (Result.ret (some rangeResp) none, n + 1)
    list := fun _ _ n => (Result.ret (some rangeResp) none, n + 1)
    isCreate := isCreate
    isDelete := isDelete
    isUpdate := isUpdate
    isCompact := isCompact
    create := fun _ _ n => (Result.ret (some (txnResp 1)) none, n + 1)
    delete := fun _ _ _ n => (Result.ret (some (txnResp 2)) none, n + 1)
    update := fun _ _ _ _ _ n => (Result.ret (some (txnResp 3)) none, n + 1)
    compact := fun _ n => (Result.ret (some (txnResp 4)) none, n + 1) }

/-- Sample limited server over the counting storage state; its backend accepts
every write. -/
def limited : LimitedServer Nat :=
  { notifyInterval := 0,
    backend := { Put := fun _ _ n => (none, n + 1), DeleteRange := fun _ _ n => (none, n + 1) },
    scheme := "" }

/-- Sample bridge in front of the sample limited server. -/
def bridge : KVServerBridge Nat := { limited := limited }

end sample

end server

namespace dynamodb

open server

/-- The number a list of decimal digit characters denotes. -/
def decimalValue (cs : List Char) : Nat :=
  cs.foldl (fun acc c => 10 * acc + (c.toNat - 48)) 0

namespace sample

/-- Decoder standing for `UnmarshalMap` on the items `Backend.Put` writes: of
the attributes `PK`, `SK` and `Value` only `Value` names a field of the record. -/
def unmarshal : Unmarshal :=
  fun item =>
    match item "Value" with
    | some (AttributeValue.B v) =>
      Except.ok { Key := "", CreateRevision := 0, ModRevision := 0, Value := v, Lease := 0 }
    | _ => Except.ok { Key := "", CreateRevision := 0, ModRevision := 0, Value := "", Lease := 0 }

/-- An empty table, the clock reading 1. -/
def emptyWorld : World := { table := [], now := 1 }

/-- A table holding key `a` at revision 1, the clock reading 5. -/
def oneKey : World :=
  { table := [{ PK := pkOf "a", SK := skOf 1, item := putItem "a" 1 "v0" }], now := 5 }

/-- A table holding key `a` at revisions 1 and 2, the clock reading 5. -/
def twoRevisions : World :=
  { table := [{ PK := pkOf "a", SK := skOf 1, item := putItem "a" 1 "v0" },
              { PK := pkOf "a", SK := skOf 2, item := putItem "a" 2 "v1" }], now := 5 }

end sample

end dynamodb

/-! ## Properties of `kv.go` and `limited.go` -/

namespace server

open etcdserverpb

/-- The loop of `toKVs` appends, to what it has so far, the conversions of the
records that are not nil, in order. -/
theorem toKVs_loop (kvs : List (Option KeyValue)) (acc : List (Option mvccpb.KeyValue)) :
    kvs.foldl
        (fun ret kv =>
          match toKV kv with
          | some newKV => ret ++ [some newKV]
          | none => ret)
        acc
      = acc ++ (kvs.filter Option.isSome).map toKV := by
  induction kvs generalizing acc with
  | nil => simp
  | cons kv rest ih =>
    cases kv with
    | none =>
      rw [List.foldl_cons, ih]
      simp [toKV]
    | some rec =>
      rw [List.foldl_cons, ih]
      simp [toKV]

/-- On a list whose first record is not nil, `toKVs` is the conversion of the
records that are not nil. -/
theorem toKVs_of_head_some (kv : KeyValue) (rest : List (Option KeyValue)) :
    toKVs (some kv :: rest) = ((some kv :: rest).filter Option.isSome).map toKV := by
  unfold toKVs
  simp only []
  rw [toKVs_loop]
  simp

/-- On a list without nil records, `toKVs` converts record by record. -/
theorem toKVs_of_all_some (kvs : List (Option KeyValue)) (h : ∀ kv ∈ kvs, kv ≠ none) :
    toKVs kvs = kvs.map toKV := by
  cases kvs with
  | nil => rfl
  | cons kv rest =>
    cases kv with
    | none => exact absurd rfl (h none (List.mem_cons_self _ _))
    | some rec =>
      rw [toKVs_of_head_some]
      congr 1
      rw [List.filter_eq_self]
      intro a ha
      cases a with
      | none => exact absurd rfl (h none ha)
      | some _ => rfl

/-- A request that uses an unsupported Range option fails the option checks. -/
theorem rangeUnsupported_of_option (r : RangeRequest) (h : usesUnsupportedOption r) :
    ∃ field, rangeUnsupported r = some (unsupported field) := by
  unfold usesUnsupportedOption at h
  unfold rangeUnsupported
  split_ifs <;> first
    | exact ⟨_, rfl⟩
    | (exfalso; simp_all)

/-- A request with every unsupported Range option unset passes the checks. -/
theorem rangeUnsupported_of_plain (r : RangeRequest) (h : plainRange r) :
    rangeUnsupported r = none := by
  obtain ⟨h1, h2, h3, h4, h5, h6, h7, h8⟩ := h
  simp [rangeUnsupported, h1, h2, h3, h4, h5, h6, h7, h8]

/-- What the comparator loop of the bridge returns is an unsupported error. -/
theorem txnCompareUnsupported_some (cs : List Compare) (err : GoError)
    (h : txnCompareUnsupported cs = some err) : ∃ field, err = unsupported field := by
  induction cs with
  | nil => simp [txnCompareUnsupported] at h
  | cons c cs ih =>
    unfold txnCompareUnsupported at h
    split_ifs at h
    · exact ⟨_, (Option.some.inj h).symm⟩
    · exact ⟨_, (Option.some.inj h).symm⟩
    · exact ⟨_, (Option.some.inj h).symm⟩
    · exact ih h

/-- The comparator loop passes exactly the lists without a comparator of target
`VALUE`, `CREATE` or `MOD`. -/
theorem txnCompareUnsupported_none (cs : List Compare) :
    txnCompareUnsupported cs = none ↔
      ¬ ∃ c ∈ cs, c.Target = Compare_VALUE ∨ c.Target = Compare_CREATE ∨
        c.Target = Compare_MOD := by
  induction cs with
  | nil => simp [txnCompareUnsupported]
  | cons c cs ih =>
    unfold txnCompareUnsupported
    split_ifs with h1 h2 h3
    · simp [h1]
    · simp [h2]
    · simp [h3]
    · rw [ih]; simp [h1, h2, h3]

/-- What an operation loop of the bridge returns is an unsupported error. -/
theorem txnOpsUnsupported_some (branch : String) (ops : List RequestOp) (err : GoError)
    (h : txnOpsUnsupported branch ops = some err) : ∃ field, err = unsupported field := by
  induction ops with
  | nil => simp [txnOpsUnsupported] at h
  | cons op ops ih =>
    unfold txnOpsUnsupported at h
    split_ifs at h
    · exact ⟨_, (Option.some.inj h).symm⟩
    · exact ⟨_, (Option.some.inj h).symm⟩
    · exact ih h

/-- An operation loop passes exactly the branches without put and delete-range. -/
theorem txnOpsUnsupported_none (branch : String) (ops : List RequestOp) :
    txnOpsUnsupported branch ops = none ↔
      ¬ ∃ op ∈ ops, op.GetRequestPut ≠ none ∨ op.GetRequestDeleteRange ≠ none := by
  induction ops with
  | nil => simp [txnOpsUnsupported]
  | cons op ops ih =>
    unfold txnOpsUnsupported
    split_ifs with h1 h2
    · simp [h1]
    · simp [h2]
    · rw [ih]; simp [h1, h2]

/-- The three loops pass exactly the requests that are not offending. -/
theorem txnUnsupported_none (r : TxnRequest) : txnUnsupported r = none ↔ ¬ txnOffending r := by
  unfold txnUnsupported txnOffending
  have hc := txnCompareUnsupported_none r.Compare
  have hs := txnOpsUnsupported_none "Success" r.Success
  have hf := txnOpsUnsupported_none "Failure" r.Failure
  cases h1 : txnCompareUnsupported r.Compare with
  | some e =>
    have : ∃ c ∈ r.Compare, c.Target = Compare_VALUE ∨ c.Target = Compare_CREATE ∨
        c.Target = Compare_MOD := by
      by_contra hn; rw [← hc, h1] at hn; exact absurd hn (by simp)
    simp [this]
  | none =>
    have hc1 := hc.1 h1
    cases h2 : txnOpsUnsupported "Success" r.Success with
    | some e =>
      have : ∃ op ∈ r.Success, op.GetRequestPut ≠ none ∨ op.GetRequestDeleteRange ≠ none := by
        by_contra hn; rw [← hs, h2] at hn; exact absurd hn (by simp)
      simp [this]
    | none =>
      have hs1 := hs.1 h2
      simp only []
      rw [hf]
      constructor
      · intro hF h
        rcases h with h | h | h
        · exact hc1 h
        · exact hs1 h
        · exact hF h
      · intro h hF
        exact h (Or.inr (Or.inr hF))

/-- What the three loops return is an unsupported error. -/
theorem txnUnsupported_some (r : TxnRequest) (err : GoError) (h : txnUnsupported r = some err) :
    ∃ field, err = unsupported field := by
  unfold txnUnsupported at h
  cases h1 : txnCompareUnsupported r.Compare with
  | some e =>
    rw [h1] at h
    have := txnCompareUnsupported_some _ _ h1
    simp only [Option.some.injEq] at h
    rw [← h]; exact this
  | none =>
    rw [h1] at h
    cases h2 : txnOpsUnsupported "Success" r.Success with
    | some e =>
      rw [h2] at h
      have := txnOpsUnsupported_some _ _ _ h2
      simp only [Option.some.injEq] at h
      rw [← h]; exact this
    | none =>
      rw [h2] at h
      exact txnOpsUnsupported_some _ _ _ h

/-- The calls `LimitedServer.Txn` makes are handler calls, and at most one. -/
theorem limitedTxn_trace {σ : Type} (u : Unlisted σ) (l : LimitedServer σ) (txn : TxnRequest)
    (s : σ) :
    (LimitedServer.Txn u l txn s).trace.length ≤ 1 ∧
      ∀ e ∈ (LimitedServer.Txn u l txn s).trace, e.isHandler = true := by
  unfold LimitedServer.Txn
  split
  · simp [Event.isHandler]
  · split
    · simp [Event.isHandler]
    · split
      · simp [Event.isHandler]
      · split_ifs <;> simp [Event.isHandler]

end server

namespace server

open etcdserverpb

/-- C10: `toKVs` returns the empty (nil) result when the list is empty or its
first entry is nil, whatever follows; on a list whose first entry is not nil it
returns exactly the conversions by `toKV` of the entries that are not nil, in
their order, none of them nil, so that the length of the result is the number
of entries that are not nil; in every case the result is no longer than the
input. -/
theorem toKVs_drops_nil_records (kvs : List (Option KeyValue)) :
    ((kvs = [] ∨ kvs.head? = some none) → toKVs kvs = []) ∧
    ((∃ kv, kvs.head? = some (some kv)) →
      toKVs kvs = (kvs.filter Option.isSome).map toKV ∧
      (∀ wire ∈ toKVs kvs, wire ≠ none) ∧
      (toKVs kvs).length = kvs.countP Option.isSome) ∧
    (toKVs kvs).length ≤ kvs.length := by
  cases kvs with
  | nil => simp [toKVs]
  | cons first rest =>
    cases first with
    | none => simp [toKVs]
    | some kv =>
      have hshape := toKVs_of_head_some kv rest
      refine ⟨by simp, fun _ => ⟨hshape, ?_, ?_⟩, ?_⟩
      · intro wire hw
        rw [hshape, List.mem_map] at hw
        obtain ⟨a, ha, rfl⟩ := hw
        have hsome := (List.mem_filter.1 ha).2
        cases a with
        | none => simp at hsome
        | some _ => simp [toKV]
      · rw [hshape, List.length_map, List.countP_eq_length_filter]
      · rw [hshape, List.length_map]
        exact List.length_filter_le _ _

/-- C10, at concrete lists: a nil first entry empties the result although a
record follows; behind a first record, a nil entry in the middle is dropped and
the two records come out converted, in order. -/
theorem toKVs_drops_nil_records_witness :
    toKVs (none :: sample.records) = [] ∧
    toKVs [sample.records.head!, none, sample.records.getLast!] =
      [toKV sample.records.head!, toKV sample.records.getLast!] ∧
    (toKVs [sample.records.head!, none, sample.records.getLast!]).length = 2 :=
  ⟨(toKVs_drops_nil_records (none :: sample.records)).1 (Or.inr rfl),
   ((toKVs_drops_nil_records [sample.records.head!, none, sample.records.getLast!]).2.1
      ⟨_, rfl⟩).1,
   ((toKVs_drops_nil_records [sample.records.head!, none, sample.records.getLast!]).2.1
      ⟨_, rfl⟩).2.2⟩

/-- C1: a Range request in which at least one of `keys_only`, `serializable`,
`sort_order`, `sort_target`, `min_mod_revision`, `max_mod_revision`,
`min_create_revision`, `max_create_revision` is set, alone or together with
others, is answered by `KVServerBridge.Range` with no response and an
unsupported error; no downstream call is made, neither `LimitedServer.Range`
nor a Backend operation, and the storage state is left as it was. -/
theorem range_rejects_unsupported_option {σ : Type} (u : Unlisted σ) (k : KVServerBridge σ)
    (r : RangeRequest) (s : σ) (h : usesUnsupportedOption r) :
    ∃ field,
      (KVServerBridge.Range u k r s).result = Result.ret none (some (unsupported field)) ∧
      (KVServerBridge.Range u k r s).state = s ∧
      (KVServerBridge.Range u k r s).trace = [] := by
  obtain ⟨field, hf⟩ := rangeUnsupported_of_option r h
  refine ⟨field, ?_, ?_, ?_⟩ <;> simp [KVServerBridge.Range, hf]

/-- C1, at the sample request with `keys_only` set. -/
theorem range_rejects_unsupported_option_witness :
    usesUnsupportedOption sample.keysOnlyReq ∧
    ∃ field,
      (KVServerBridge.Range sample.unlisted sample.bridge sample.keysOnlyReq 0).result
        = Result.ret none (some (unsupported field)) ∧
      (KVServerBridge.Range sample.unlisted sample.bridge sample.keysOnlyReq 0).state = 0 ∧
      (KVServerBridge.Range sample.unlisted sample.bridge sample.keysOnlyReq 0).trace = [] :=
  ⟨Or.inl rfl,
   range_rejects_unsupported_option sample.unlisted sample.bridge sample.keysOnlyReq 0
     (Or.inl rfl)⟩

/-- C2: for a Range request with every unsupported option unset, when
`LimitedServer.Range` succeeds with a response whose records are all non-nil,
`KVServerBridge.Range` succeeds with a response that has the header, `More` and
`Count` of that response and as many records, the i-th wire record carrying the
key, value, lease, create revision and mod revision of the i-th internal
record. -/
theorem range_rewraps_records {σ : Type} (u : Unlisted σ) (k : KVServerBridge σ)
    (r : RangeRequest) (s : σ) (resp : RangeResponse) (hplain : plainRange r)
    (hok : (LimitedServer.Range u k.limited r s).result = Result.ret (some resp) none)
    (hrecords : ∀ kv ∈ resp.Kvs, kv ≠ none) :
    ∃ out : etcdserverpb.RangeResponse,
      (KVServerBridge.Range u k r s).result = Result.ret (some out) none ∧
      out.Header = resp.Header ∧ out.More = resp.More ∧ out.Count = resp.Count ∧
      out.Kvs.length = resp.Kvs.length ∧
      ∀ i, i < resp.Kvs.length →
        ∃ (rec : KeyValue) (wire : mvccpb.KeyValue),
          resp.Kvs[i]? = some (some rec) ∧ out.Kvs[i]? = some (some wire) ∧
          wire.Key = rec.Key ∧ wire.Value = rec.Value ∧ wire.Lease = rec.Lease ∧
          wire.CreateRevision = rec.CreateRevision ∧ wire.ModRevision = rec.ModRevision := by
  refine ⟨{ More := resp.More, Count := resp.Count, Header := resp.Header,
            Kvs := toKVs resp.Kvs }, ?_, rfl, rfl, rfl, ?_, ?_⟩
  · simp [KVServerBridge.Range, rangeUnsupported_of_plain r hplain, hok]
  · simp [toKVs_of_all_some resp.Kvs hrecords]
  · intro i hi
    have hmem : resp.Kvs[i] ∈ resp.Kvs := List.getElem_mem hi
    cases hrec : resp.Kvs[i] with
    | none => exact absurd hrec (hrecords _ hmem)
    | some rec =>
      refine ⟨rec, { Key := rec.Key, Value := rec.Value, Lease := rec.Lease,
                     CreateRevision := rec.CreateRevision, ModRevision := rec.ModRevision,
                     Version := 0 }, ?_, ?_, rfl, rfl, rfl, rfl, rfl⟩
      · rw [List.getElem?_eq_getElem hi, hrec]
      · simp only [toKVs_of_all_some resp.Kvs hrecords, List.getElem?_map,
          List.getElem?_eq_getElem hi, hrec, Option.map_some', toKV]

/-- C2, at the sample request and the sample limited server, whose range
handler answers with two records. -/
theorem range_rewraps_records_witness :
    plainRange sample.rangeReq ∧
    (LimitedServer.Range sample.unlisted sample.bridge.limited sample.rangeReq 0).result
      = Result.ret (some sample.rangeResp) none ∧
    (∀ kv ∈ sample.rangeResp.Kvs, kv ≠ none) ∧
    ∃ out : etcdserverpb.RangeResponse,
      (KVServerBridge.Range sample.unlisted sample.bridge sample.rangeReq 0).result
        = Result.ret (some out) none ∧
      out.Header = sample.rangeResp.Header ∧ out.More = sample.rangeResp.More ∧
      out.Count = sample.rangeResp.Count ∧
      out.Kvs.length = sample.rangeResp.Kvs.length ∧
      ∀ i, i < sample.rangeResp.Kvs.length →
        ∃ (rec : KeyValue) (wire : mvccpb.KeyValue),
          sample.rangeResp.Kvs[i]? = some (some rec) ∧ out.Kvs[i]? = some (some wire) ∧
          wire.Key = rec.Key ∧ wire.Value = rec.Value ∧ wire.Lease = rec.Lease ∧
          wire.CreateRevision = rec.CreateRevision ∧ wire.ModRevision = rec.ModRevision :=
  ⟨by decide, rfl, by decide,
   range_rewraps_records sample.unlisted sample.bridge sample.rangeReq 0 sample.rangeResp
     (by decide) rfl (by decide)⟩

end server

namespace server

open etcdserverpb

/-- On an offending request the three loops return an unsupported error. -/
theorem txnUnsupported_of_offending (r : TxnRequest) (h : txnOffending r) :
    ∃ field, txnUnsupported r = some (unsupported field) := by
  cases hu : txnUnsupported r with
  | none => exact absurd h ((txnUnsupported_none r).1 hu)
  | some err =>
    obtain ⟨field, hf⟩ := txnUnsupported_some r err hu
    exact ⟨field, by rw [hf]⟩

/-- A request of one of the three mutation shapes of the specification is
offending: its success branch holds a put or a delete-range. -/
theorem offending_of_mutation_shape (r : TxnRequest)
    (h : createShape r ∨ updateShape r ∨ deleteShape r) : txnOffending r := by
  refine Or.inr (Or.inl ?_)
  rcases h with ⟨c, put, _, _, hs, _⟩ | ⟨c, rev, put, _, _, hs, _⟩ | ⟨c, rev, del, _, _, hs, _⟩
  · exact ⟨_, by rw [hs]; exact List.mem_singleton_self _, Or.inl (by simp [RequestOp.GetRequestPut])⟩
  · exact ⟨_, by rw [hs]; exact List.mem_singleton_self _, Or.inl (by simp [RequestOp.GetRequestPut])⟩
  · exact ⟨_, by rw [hs]; exact List.mem_singleton_self _,
      Or.inr (by simp [RequestOp.GetRequestDeleteRange])⟩

/-- C3, refuted at the sample create-if-absent transaction: the request has
the create-if-absent shape and `LimitedServer.Txn` would handle it through the
create handler, yet `KVServerBridge.Txn` answers it with the unsupported error
`compare.Create`, without any downstream call and with the storage state as it
was. -/
theorem txn_create_shape_is_rejected :
    createShape sample.createTxn ∧
    (LimitedServer.Txn sample.unlisted sample.limited sample.createTxn 0).result
      = Result.ret (some (sample.txnResp 1)) none ∧
    (KVServerBridge.Txn sample.unlisted sample.bridge sample.createTxn 0).result
      = Result.ret none (some (unsupported "compare.Create")) ∧
    (KVServerBridge.Txn sample.unlisted sample.bridge sample.createTxn 0).trace = [] ∧
    (KVServerBridge.Txn sample.unlisted sample.bridge sample.createTxn 0).state = 0 := by
  refine ⟨⟨sample.absentCmp, sample.putReq, rfl, ⟨rfl, rfl, rfl⟩, rfl, ?_⟩, rfl, rfl, rfl, rfl⟩
  intro op hop
  simp [sample.createTxn, TxnRequest.Failure] at hop

/-- C3 as amended: a Txn request of one of the three mutation shapes
(create-if-absent, compare-and-swap update, compare-and-delete) is refused by
`KVServerBridge.Txn` with no response and an unsupported error, without a call
of `LimitedServer.Txn` or any other downstream call, the storage state left as
it was. -/
theorem txn_mutation_shapes_rejected {σ : Type} (u : Unlisted σ) (k : KVServerBridge σ)
    (r : TxnRequest) (s : σ) (h : createShape r ∨ updateShape r ∨ deleteShape r) :
    ∃ field,
      (KVServerBridge.Txn u k r s).result = Result.ret none (some (unsupported field)) ∧
      (KVServerBridge.Txn u k r s).state = s ∧
      (KVServerBridge.Txn u k r s).trace = [] := by
  obtain ⟨field, hf⟩ := txnUnsupported_of_offending r (offending_of_mutation_shape r h)
  refine ⟨field, ?_, ?_, ?_⟩ <;> simp [KVServerBridge.Txn, hf]

/-- C3 as amended, at the sample compare-and-delete transaction. -/
theorem txn_mutation_shapes_rejected_witness :
    deleteShape sample.deleteTxn ∧
    ∃ field,
      (KVServerBridge.Txn sample.unlisted sample.bridge sample.deleteTxn 0).result
        = Result.ret none (some (unsupported field)) ∧
      (KVServerBridge.Txn sample.unlisted sample.bridge sample.deleteTxn 0).state = 0 ∧
      (KVServerBridge.Txn sample.unlisted sample.bridge sample.deleteTxn 0).trace = [] :=
  have hshape : deleteShape sample.deleteTxn :=
    ⟨sample.revisionCmp, 5, { Key := "a", RangeEnd := "", PrevKv := false }, rfl,
      ⟨rfl, rfl, rfl⟩, rfl, by
        intro op hop
        simp only [sample.deleteTxn, TxnRequest.Failure, List.mem_singleton] at hop
        subst hop
        exact ⟨rfl, rfl⟩⟩
  ⟨hshape,
   txn_mutation_shapes_rejected sample.unlisted sample.bridge sample.deleteTxn 0
     (Or.inr (Or.inr hshape))⟩

/-- C4: `KVServerBridge.Txn` returns no response and an unsupported error
without calling `LimitedServer.Txn` if and only if some comparator has target
`VALUE`, `CREATE` or `MOD` or some operation of the success or of the failure
branch is a put or a delete-range; it then makes no downstream call at all and
leaves the storage state as it was. In every other case it calls
`LimitedServer.Txn` exactly once, as its first downstream call, and returns the
response and error of that call, and its storage state, unchanged. -/
theorem txn_rejects_iff_offending {σ : Type} (u : Unlisted σ) (k : KVServerBridge σ)
    (r : TxnRequest) (s : σ) :
    (((∃ field,
          (KVServerBridge.Txn u k r s).result = Result.ret none (some (unsupported field))) ∧
        (KVServerBridge.Txn u k r s).trace.countP Event.isLimitedTxn = 0) ↔
      txnOffending r) ∧
    (txnOffending r →
      (KVServerBridge.Txn u k r s).state = s ∧ (KVServerBridge.Txn u k r s).trace = []) ∧
    (¬ txnOffending r →
      (KVServerBridge.Txn u k r s).result = (LimitedServer.Txn u k.limited r s).result ∧
      (KVServerBridge.Txn u k r s).state = (LimitedServer.Txn u k.limited r s).state ∧
      (KVServerBridge.Txn u k r s).trace
        = Event.limitedTxn r :: (LimitedServer.Txn u k.limited r s).trace ∧
      (KVServerBridge.Txn u k r s).trace.countP Event.isLimitedTxn = 1) := by
  have hinner : (LimitedServer.Txn u k.limited r s).trace.countP Event.isLimitedTxn = 0 := by
    rw [List.countP_eq_zero]
    intro e he
    have := (limitedTxn_trace u k.limited r s).2 e he
    cases e <;> simp_all [Event.isHandler, Event.isLimitedTxn]
  by_cases hoff : txnOffending r
  · obtain ⟨field, hf⟩ := txnUnsupported_of_offending r hoff
    refine ⟨⟨fun _ => hoff, fun _ => ⟨⟨field, ?_⟩, ?_⟩⟩, fun _ => ⟨?_, ?_⟩,
      fun hn => absurd hoff hn⟩ <;> simp [KVServerBridge.Txn, hf]
  · have hu := (txnUnsupported_none r).2 hoff
    refine ⟨⟨fun h => ?_, fun h => absurd h hoff⟩, fun h => absurd h hoff,
      fun _ => ⟨?_, ?_, ?_, ?_⟩⟩
    · exfalso
      have h2 := h.2
      simp [KVServerBridge.Txn, hu, Event.isLimitedTxn] at h2
    · simp [KVServerBridge.Txn, hu]
    · simp [KVServerBridge.Txn, hu]
    · simp [KVServerBridge.Txn, hu]
    · simp [KVServerBridge.Txn, hu, Event.isLimitedTxn, hinner]

/-- C4, at two sample requests: the compare-and-swap update transaction is
offending and refused without a downstream call; the read-only transaction is
not offending and goes to `LimitedServer.Txn`, called once, whose answer is
returned. -/
theorem txn_rejects_iff_offending_witness :
    txnOffending sample.updateTxn ∧
    (KVServerBridge.Txn sample.unlisted sample.bridge sample.updateTxn 0).trace = [] ∧
    ¬ txnOffending sample.readTxn ∧
    (KVServerBridge.Txn sample.unlisted sample.bridge sample.readTxn 0).result
      = (LimitedServer.Txn sample.unlisted sample.limited sample.readTxn 0).result ∧
    (KVServerBridge.Txn sample.unlisted sample.bridge sample.readTxn 0).trace.countP
      Event.isLimitedTxn = 1 :=
  have hoff : txnOffending sample.updateTxn :=
    Or.inl ⟨sample.revisionCmp, List.mem_singleton_self _, Or.inr (Or.inr rfl)⟩
  have hread : ¬ txnOffending sample.readTxn := (txnUnsupported_none sample.readTxn).1 rfl
  ⟨hoff,
   ((txn_rejects_iff_offending sample.unlisted sample.bridge sample.updateTxn 0).2.1 hoff).2,
   hread,
   ((txn_rejects_iff_offending sample.unlisted sample.bridge sample.readTxn 0).2.2 hread).1,
   ((txn_rejects_iff_offending sample.unlisted sample.bridge sample.readTxn 0).2.2 hread).2.2.2⟩

/-- C5: `LimitedServer.Txn` fails closed. When no classifier recognises the
request it returns no response and `ErrNotSupported`, calls no handler and
leaves the storage state as it was. Otherwise it calls exactly one handler, the
one of the first classifier that recognises the request in the order create,
delete, update, compact, on the put, key, value, revision and lease that
classifier extracted: the only call recorded is that call, and the result
returned and the storage state left are the result and the state of that
handler, unchanged. -/
theorem limited_txn_fails_closed {σ : Type} (u : Unlisted σ) (l : LimitedServer σ)
    (txn : TxnRequest) (s : σ) :
    (unrecognised u txn →
      (LimitedServer.Txn u l txn s).result = Result.ret none (some GoError.ErrNotSupported) ∧
      (LimitedServer.Txn u l txn s).state = s ∧
      (LimitedServer.Txn u l txn s).trace = []) ∧
    (∀ put, u.isCreate txn = some put →
      (LimitedServer.Txn u l txn s).result = (u.create l put s).1 ∧
      (LimitedServer.Txn u l txn s).state = (u.create l put s).2 ∧
      (LimitedServer.Txn u l txn s).trace = [Event.create put]) ∧
    (u.isCreate txn = none → ∀ rev key, u.isDelete txn = (rev, key, true) →
      (LimitedServer.Txn u l txn s).result = (u.delete l key rev s).1 ∧
      (LimitedServer.Txn u l txn s).state = (u.delete l key rev s).2 ∧
      (LimitedServer.Txn u l txn s).trace = [Event.delete key rev]) ∧
    (u.isCreate txn = none → (u.isDelete txn).2.2 = false →
      ∀ rev key value lease, u.isUpdate txn = (rev, key, value, lease, true) →
      (LimitedServer.Txn u l txn s).result = (u.update l rev key value lease s).1 ∧
      (LimitedServer.Txn u l txn s).state = (u.update l rev key value lease s).2 ∧
      (LimitedServer.Txn u l txn s).trace = [Event.update rev key value lease]) ∧
    (u.isCreate txn = none → (u.isDelete txn).2.2 = false →
      (u.isUpdate txn).2.2.2.2 = false → u.isCompact txn = true →
      (LimitedServer.Txn u l txn s).result = (u.compact l s).1 ∧
      (LimitedServer.Txn u l txn s).state = (u.compact l s).2 ∧
      (LimitedServer.Txn u l txn s).trace = [Event.compact]) ∧
    (¬ unrecognised u txn →
      (LimitedServer.Txn u l txn s).trace.length = 1 ∧
      ∀ e ∈ (LimitedServer.Txn u l txn s).trace, e.isHandler = true) := by
  refine ⟨?_, ?_, ?_, ?_, ?_, ?_⟩
  · rintro ⟨h1, h2, h3, h4⟩
    rcases hd : u.isDelete txn with ⟨dr, dk, dok⟩
    rcases hup : u.isUpdate txn with ⟨ur, uk, uv, ul, uok⟩
    rw [hd] at h2; rw [hup] at h3
    simp only at h2 h3
    subst h2; subst h3
    simp [LimitedServer.Txn, h1, hd, hup, h4]
  · intro put h1
    simp [LimitedServer.Txn, h1]
  · intro h1 rev key hd
    simp [LimitedServer.Txn, h1, hd]
  · intro h1 h2 rev key value lease hup
    rcases hd : u.isDelete txn with ⟨dr, dk, dok⟩
    rw [hd] at h2
    simp only at h2
    subst h2
    simp [LimitedServer.Txn, h1, hd, hup]
  · intro h1 h2 h3 h4
    rcases hd : u.isDelete txn with ⟨dr, dk, dok⟩
    rcases hup : u.isUpdate txn with ⟨ur, uk, uv, ul, uok⟩
    rw [hd] at h2; rw [hup] at h3
    simp only at h2 h3
    subst h2; subst h3
    simp [LimitedServer.Txn, h1, hd, hup, h4]
  · intro hn
    refine ⟨?_, (limitedTxn_trace u l txn s).2⟩
    rcases hd : u.isDelete txn with ⟨dr, dk, dok⟩
    rcases hup : u.isUpdate txn with ⟨ur, uk, uv, ul, uok⟩
    cases h1 : u.isCreate txn with
    | some put => simp [LimitedServer.Txn, h1]
    | none =>
      cases dok with
      | true => simp [LimitedServer.Txn, h1, hd]
      | false =>
        cases uok with
        | true => simp [LimitedServer.Txn, h1, hd, hup]
        | false =>
          cases h4 : u.isCompact txn with
          | true => simp [LimitedServer.Txn, h1, hd, hup, h4]
          | false => exact absurd ⟨h1, by rw [hd], by rw [hup], h4⟩ hn

/-- C5, at the sample classifiers and handlers, from the storage state 0. The
read-only transaction, which no classifier recognises, is answered
`ErrNotSupported` without a call and with the state still 0. The
compare-and-delete transaction goes to the delete handler with key `a` and
revision 5 and to no other: the answer is that handler's answer, number 2, and
the state is the 1 that handler leaves. The create-if-absent transaction goes
to the create handler with the put of the request, whose answer, number 1, is
returned. -/
theorem limited_txn_fails_closed_witness :
    unrecognised sample.unlisted sample.readTxn ∧
    ((LimitedServer.Txn sample.unlisted sample.limited sample.readTxn 0).result
        = Result.ret none (some GoError.ErrNotSupported) ∧
      (LimitedServer.Txn sample.unlisted sample.limited sample.readTxn 0).state = 0 ∧
      (LimitedServer.Txn sample.unlisted sample.limited sample.readTxn 0).trace = []) ∧
    ((LimitedServer.Txn sample.unlisted sample.limited sample.deleteTxn 0).result
        = Result.ret (some (sample.txnResp 2)) none ∧
      (LimitedServer.Txn sample.unlisted sample.limited sample.deleteTxn 0).state = 1 ∧
      (LimitedServer.Txn sample.unlisted sample.limited sample.deleteTxn 0).trace
        = [Event.delete "a" 5]) ∧
    ((LimitedServer.Txn sample.unlisted sample.limited sample.createTxn 0).result
        = Result.ret (some (sample.txnResp 1)) none ∧
      (LimitedServer.Txn sample.unlisted sample.limited sample.createTxn 0).state = 1 ∧
      (LimitedServer.Txn sample.unlisted sample.limited sample.createTxn 0).trace
        = [Event.create sample.putReq]) :=
  have hun : unrecognised sample.unlisted sample.readTxn := ⟨rfl, rfl, rfl, rfl⟩
  ⟨hun,
   (limited_txn_fails_closed sample.unlisted sample.limited sample.readTxn 0).1 hun,
   (limited_txn_fails_closed sample.unlisted sample.limited sample.deleteTxn 0).2.2.1 rfl
     5 "a" rfl,
   (limited_txn_fails_closed sample.unlisted sample.limited sample.createTxn 0).2.1
     sample.putReq rfl⟩

end server

namespace server

open etcdserverpb

/-- Whatever the backend, a successful `LimitedServer.Put` reports the header
`txnHeader(0)`: revision 0. -/
theorem limited_put_header {σ : Type} (l : LimitedServer σ) (r : PutRequest) (s : σ)
    (resp : PutResponse) (err : Option GoError)
    (h : (LimitedServer.Put l r s).result = Result.ret (some resp) err) :
    resp.Header = some (txnHeader 0) := by
  unfold LimitedServer.Put at h
  split at h
  · simp at h
  · simp only [Result.ret.injEq, Option.some.injEq] at h
    rw [← h.1]

/-- Whatever the backend, a successful `LimitedServer.DeleteRange` reports the
header `txnHeader(0)`: revision 0. -/
theorem limited_deleteRange_header {σ : Type} (l : LimitedServer σ) (r : DeleteRangeRequest)
    (s : σ) (resp : DeleteRangeResponse) (err : Option GoError)
    (h : (LimitedServer.DeleteRange l r s).result = Result.ret (some resp) err) :
    resp.Header = some (txnHeader 0) := by
  unfold LimitedServer.DeleteRange at h
  split at h
  · simp at h
  · simp only [Result.ret.injEq, Option.some.injEq] at h
    rw [← h.1]

end server

/-! ## Properties of the DynamoDB adapter -/

namespace dynamodb

open server

/-- A decimal digit character has its digit as value and is not the minus
sign. -/
theorem digitChar_value (d : Nat) (h : d < 10) :
    (Nat.digitChar d).toNat - 48 = d ∧ Nat.digitChar d ≠ '-' := by
  interval_cases d <;> decide

/-- With enough fuel, the digit loop of the standard library puts in front of
its accumulator digits that denote the number and hold no minus sign. -/
theorem toDigitsCore_value (fuel : Nat) : ∀ (n : Nat) (ds : List Char), n < fuel →
    ∃ front, Nat.toDigitsCore 10 fuel n ds = front ++ ds ∧ decimalValue front = n ∧
      ∀ c ∈ front, c ≠ '-' := by
  induction fuel with
  | zero => intro n ds h; omega
  | succ fuel ih =>
    intro n ds h
    have hd := digitChar_value (n % 10) (Nat.mod_lt _ (by decide))
    by_cases h0 : n / 10 = 0
    · refine ⟨[Nat.digitChar (n % 10)], ?_, ?_, ?_⟩
      · simp [Nat.toDigitsCore, h0]
      · simp [decimalValue, hd.1]; omega
      · intro c hc; simp at hc; subst hc; exact hd.2
    · obtain ⟨front, h1, h2, h3⟩ := ih (n / 10) (Nat.digitChar (n % 10) :: ds) (by omega)
      refine ⟨front ++ [Nat.digitChar (n % 10)], ?_, ?_, ?_⟩
      · simp [Nat.toDigitsCore, h0, h1]
      · unfold decimalValue at h2 ⊢
        rw [List.foldl_append, h2]
        simp [hd.1]; omega
      · intro c hc
        rcases List.mem_append.1 hc with hc | hc
        · exact h3 c hc
        · simp at hc; subst hc; exact hd.2

/-- The decimal digits of a number denote it and hold no minus sign. -/
theorem toDigits_value (n : Nat) :
    decimalValue (Nat.toDigits 10 n) = n ∧ ∀ c ∈ Nat.toDigits 10 n, c ≠ '-' := by
  obtain ⟨front, h1, h2, h3⟩ := toDigitsCore_value (n + 1) n [] (by omega)
  have : Nat.toDigits 10 n = front := by simpa [Nat.toDigits] using h1
  rw [this]; exact ⟨h2, h3⟩

/-- Different integers print differently under `%d`. -/
theorem fmtD_injective : Function.Injective fmtD := by
  intro a b h
  cases a with
  | ofNat n =>
    cases b with
    | ofNat m =>
      have h1 : Nat.toDigits 10 n = Nat.toDigits 10 m := by
        have := congrArg String.data h
        simpa [fmtD] using this
      have := congrArg decimalValue h1
      rw [(toDigits_value n).1, (toDigits_value m).1] at this
      rw [this]
    | negSucc m =>
      exfalso
      have h1 : Nat.toDigits 10 n = '-' :: Nat.toDigits 10 (m + 1) := by
        have := congrArg String.data h
        simpa [fmtD] using this
      exact (toDigits_value n).2 '-' (by rw [h1]; simp) rfl
  | negSucc n =>
    cases b with
    | ofNat m =>
      exfalso
      have h1 : '-' :: Nat.toDigits 10 (n + 1) = Nat.toDigits 10 m := by
        have := congrArg String.data h
        simpa [fmtD] using this
      exact (toDigits_value m).2 '-' (by rw [← h1]; simp) rfl
    | negSucc m =>
      have h1 : Nat.toDigits 10 (n + 1) = Nat.toDigits 10 (m + 1) := by
        have := congrArg String.data h
        simpa [fmtD] using this
      have := congrArg decimalValue h1
      rw [(toDigits_value _).1, (toDigits_value _).1] at this
      have : n = m := by omega
      rw [this]

/-- Different revisions have different sort keys. -/
theorem skOf_injective : Function.Injective skOf := by
  intro a b h
  apply fmtD_injective
  have := congrArg String.data h
  simp [skOf] at this
  exact String.ext this

/-- The two key attributes of a key-only attribute map. -/
theorem primaryKey_keyItem (pk sk : String) : primaryKey (keyItem pk sk) = some (pk, sk) := by
  simp [primaryKey, keyItem]

/-- Removing at a primary key where nothing is stored changes nothing. -/
theorem remove_of_lookup_none (t : Table) (pk sk : String) (h : t.lookup pk sk = none) :
    t.remove pk sk = t := by
  unfold Table.lookup at h
  unfold Table.remove
  rw [List.filter_eq_self]
  intro e he
  have hfind : t.find? (Entry.isAt pk sk) = none := by
    cases hf : t.find? (Entry.isAt pk sk) with
    | none => rfl
    | some x => rw [hf] at h; simp at h
  have := List.find?_eq_none.1 hfind e he
  simpa using this

/-- Removing at one primary key leaves the lookup at another as it was. -/
theorem lookup_remove_of_ne (t : Table) (pk sk pk2 sk2 : String)
    (h : ¬ (pk2 = pk ∧ sk2 = sk)) :
    (t.remove pk sk).lookup pk2 sk2 = t.lookup pk2 sk2 := by
  unfold Table.lookup Table.remove
  congr 1
  induction t with
  | nil => rfl
  | cons e t ih =>
    by_cases h1 : Entry.isAt pk sk e = true
    · have h2 : Entry.isAt pk2 sk2 e = false := by
        simp only [Entry.isAt, Bool.and_eq_true, decide_eq_true_eq] at h1
        simp only [Entry.isAt, Bool.and_eq_false_iff, decide_eq_false_iff_not]
        by_contra hc
        push_neg at hc
        exact h ⟨hc.1.symm.trans h1.1, hc.2.symm.trans h1.2⟩
      simp [List.filter_cons, h1, List.find?_cons, h2, ih]
    · simp only [Bool.not_eq_true] at h1
      simp only [List.filter_cons, h1, Bool.not_false, if_true, List.find?_cons]
      rw [ih]

end dynamodb

namespace dynamodb

open server etcdserverpb

/-- C7, on the code. Whatever the ill-typed call of `Backend.Update` is taken
to do, an update answers either an error together with `updated = false`, or,
without error, `updated = true` with the revision handed in and the record of
its arguments: the revision is compared with nothing, so `updated = false`
without error is never reported. With the call read as `Backend.Put`, on the
table that holds key `a` at revision 1, the update guarded by revision 1
reports `updated = true`, and the following update guarded by the same, now
stale, revision 1 reports `updated = true` as well and adds an item of its own
under the clock reading 6, which the table did not hold after the first
update. -/
theorem update_never_compares_revision (put : PutCall) (w : World) (K : String) (V : Bytes)
    (R lease : Int) :
    ((Backend.Update put K V R lease w).1
        = { rev := R,
            kv := some { Key := K, CreateRevision := 0, ModRevision := 0, Value := V,
                         Lease := lease },
            ok := true, err := none } ∨
      ∃ err, (Backend.Update put K V R lease w).1
        = { rev := 0, kv := none, ok := false, err := some err }) ∧
    storedAt sample.oneKey.table "a" 1 ∧
    (Backend.Update Backend.Put "a" "v1" 1 0 sample.oneKey).1.ok = true ∧
    (Backend.Update Backend.Put "a" "v2" 1 0
        { (Backend.Update Backend.Put "a" "v1" 1 0 sample.oneKey).2 with now := 6 }).1
      = { rev := 1,
          kv := some { Key := "a", CreateRevision := 0, ModRevision := 0, Value := "v2",
                       Lease := 0 },
          ok := true, err := none } ∧
    ¬ storedAt (Backend.Update Backend.Put "a" "v1" 1 0 sample.oneKey).2.table "a" 6 ∧
    storedAt (Backend.Update Backend.Put "a" "v2" 1 0
        { (Backend.Update Backend.Put "a" "v1" 1 0 sample.oneKey).2 with now := 6 }).2.table
      "a" 6 := by
  refine ⟨?_, by decide, by decide, by decide, by decide, by decide⟩
  unfold Backend.Update
  rcases hput : put K V w with ⟨err, w1⟩
  cases err with
  | none => exact Or.inl rfl
  | some e => exact Or.inr ⟨e, rfl⟩

/-- C8, refuted at two tables. Where key `a` is stored at revision 1 only,
`Delete(a, 2)` reports `deleted = true`, with revision 0 and no record. Where
key `a` is stored at revisions 1 and 2, `Delete(a, 2)`, whose revision differs
from the stored revision 1, reports `deleted = true` and removes the item at
revision 2, so the table is not left unchanged. -/
theorem delete_with_wrong_revision_reports_deleted :
    storedAt sample.oneKey.table "a" 1 ∧
    (Backend.Delete sample.unmarshal "a" 2 sample.oneKey).1
      = { rev := 0, kv := none, ok := true, err := none } ∧
    storedAt sample.twoRevisions.table "a" 1 ∧
    storedAt sample.twoRevisions.table "a" 2 ∧
    (Backend.Delete sample.unmarshal "a" 2 sample.twoRevisions).1.ok = true ∧
    ¬ storedAt (Backend.Delete sample.unmarshal "a" 2 sample.twoRevisions).2.table "a" 2 := by
  refine ⟨by decide, by decide, by decide, by decide, by decide, by decide⟩

/-- C8 as amended: for a key K stored at revision R and a revision R' other
than R, `Delete(K, R')` leaves K stored at R and never reports `deleted = false`
unless it returns an error; when no item of K is stored at R' it returns no
error, reports `deleted = true` with revision 0 and no record, and leaves the
table unchanged. -/
theorem delete_with_wrong_revision (unmarshal : Unmarshal) (w : World) (K : String)
    (R R2 : Int) (hstored : storedAt w.table K R) (hne : R2 ≠ R) :
    storedAt (Backend.Delete unmarshal K R2 w).2.table K R ∧
    ((Backend.Delete unmarshal K R2 w).1.err = none →
      (Backend.Delete unmarshal K R2 w).1.ok = true) ∧
    (¬ storedAt w.table K R2 →
      Backend.Delete unmarshal K R2 w
        = ({ rev := 0, kv := none, ok := true, err := none }, w)) := by
  have htable : (Backend.Delete unmarshal K R2 w).2.table
      = w.table.remove (pkOf K) (skOf R2) := by
    unfold Backend.Delete
    simp only [DeleteItemWithContext, primaryKey_keyItem, if_true]
    cases w.table.lookup (pkOf K) (skOf R2) with
    | none => rfl
    | some attrs => cases hu : unmarshal attrs <;> simp [hu]
  refine ⟨?_, ?_, ?_⟩
  · unfold storedAt at hstored ⊢
    rw [htable, lookup_remove_of_ne]
    · exact hstored
    · rintro ⟨_, hsk⟩
      exact hne (skOf_injective hsk).symm
  · unfold Backend.Delete
    simp only [DeleteItemWithContext, primaryKey_keyItem, if_true]
    cases w.table.lookup (pkOf K) (skOf R2) with
    | none => simp
    | some attrs => cases hu : unmarshal attrs <;> simp [hu]
  · intro habsent
    have hnone : w.table.lookup (pkOf K) (skOf R2) = none := by
      unfold storedAt at habsent
      cases hl : w.table.lookup (pkOf K) (skOf R2) with
      | none => rfl
      | some x => rw [hl] at habsent; simp at habsent
    unfold Backend.Delete
    simp only [DeleteItemWithContext, primaryKey_keyItem, if_true, hnone,
      remove_of_lookup_none _ _ _ hnone]

/-- C8 as amended, at the table that holds key `a` at revision 1 only. -/
theorem delete_with_wrong_revision_witness :
    storedAt sample.oneKey.table "a" 1 ∧ (2 : Int) ≠ 1 ∧
    ¬ storedAt sample.oneKey.table "a" 2 ∧
    storedAt (Backend.Delete sample.unmarshal "a" 2 sample.oneKey).2.table "a" 1 ∧
    Backend.Delete sample.unmarshal "a" 2 sample.oneKey
      = ({ rev := 0, kv := none, ok := true, err := none }, sample.oneKey) :=
  ⟨by decide, by decide, by decide,
   (delete_with_wrong_revision sample.unmarshal sample.oneKey "a" 1 2
      (by decide) (by decide)).1,
   (delete_with_wrong_revision sample.unmarshal sample.oneKey "a" 1 2
      (by decide) (by decide)).2.2 (by decide)⟩

/-- C6, evaluated at two successive puts to the different keys `a` and `b`
against the adapter, from an empty table, the clock reading 1 and then 2. Both
calls succeed and each stores an item of its own, yet both response headers
report revision 0: the second revision is not greater than the first. -/
theorem successive_puts_report_revision_zero :
    (LimitedServer.Put limited server.sample.putReq sample.emptyWorld).result
      = Result.ret (some { Header := some (txnHeader 0), PrevKv := none }) none ∧
    (LimitedServer.Put limited server.sample.putReqB
        { (LimitedServer.Put limited server.sample.putReq sample.emptyWorld).state
            with now := 2 }).result
      = Result.ret (some { Header := some (txnHeader 0), PrevKv := none }) none ∧
    storedAt (LimitedServer.Put limited server.sample.putReq sample.emptyWorld).state.table
      "a" 1 ∧
    ¬ storedAt (LimitedServer.Put limited server.sample.putReq sample.emptyWorld).state.table
      "b" 2 ∧
    storedAt (LimitedServer.Put limited server.sample.putReqB
        { (LimitedServer.Put limited server.sample.putReq sample.emptyWorld).state
            with now := 2 }).state.table "b" 2 ∧
    reportedRevision PutResponse.Header
        (LimitedServer.Put limited server.sample.putReq sample.emptyWorld).result = some 0 ∧
    reportedRevision PutResponse.Header
        (LimitedServer.Put limited server.sample.putReqB
          { (LimitedServer.Put limited server.sample.putReq sample.emptyWorld).state
              with now := 2 }).result = some 0 := by
  refine ⟨by decide, by decide, by decide, by decide, by decide, by decide, by decide⟩

/-- C9, evaluated at a put of value `v1` under key `a` into an empty table at
the clock reading 1: `LimitedServer.Put` succeeds and reports revision 0 in its
header, the item is stored under the clock reading 1, and `Backend.Get` of key
`a` at the reported revision 0 answers `(0, nil, nil)`, an absent record,
whatever the decoder. -/
theorem get_at_reported_revision_is_absent (unmarshal : Unmarshal) :
    (LimitedServer.Put limited server.sample.putReq sample.emptyWorld).result
      = Result.ret (some { Header := some (txnHeader 0), PrevKv := none }) none ∧
    reportedRevision PutResponse.Header
        (LimitedServer.Put limited server.sample.putReq sample.emptyWorld).result = some 0 ∧
    storedAt (LimitedServer.Put limited server.sample.putReq sample.emptyWorld).state.table
      "a" 1 ∧
    Backend.Get unmarshal "a" "" 0 0
        (LimitedServer.Put limited server.sample.putReq sample.emptyWorld).state
      = { rev := 0, kv := none, err := none } := by
  refine ⟨by decide, by decide, by decide, ?_⟩
  have habsent :
      ¬ storedAt (LimitedServer.Put limited server.sample.putReq sample.emptyWorld).state.table
        "a" 0 := by
    decide
  have hlookup :
      (LimitedServer.Put limited server.sample.putReq sample.emptyWorld).state.table.lookup
        (pkOf "a") (skOf 0) = none := by
    unfold storedAt at habsent
    cases hl : (LimitedServer.Put limited server.sample.putReq
        sample.emptyWorld).state.table.lookup (pkOf "a") (skOf 0) with
    | none => rfl
    | some x => rw [hl] at habsent; simp at habsent
  simp [Backend.Get, GetItemWithContext, primaryKey_keyItem, hlookup]

end dynamodb
